import Mathlib

/-!
Verification of the `ufo-map` MapView component
(`src/components/MapView.tsx`) against its natural-language
specification.  The component's data model, pure helpers and
event-driven pagination behaviour are embedded shallowly below;
stateful React behaviour (effects, `setTimeout` callbacks) is modelled
as an explicit transition system over the component's state, with
scheduled timeouts carried as explicit timers holding their captured
closure values.
-/

namespace UfoMap

/-- One entry of the marker data feed (`MarkerData` in the source).
`lat`/`lon` are `Option` because malformed feed entries may lack them;
numbers are modelled as rationals. -/
structure Marker where
  id : Option Int
  lat : Option ℚ
  lon : Option ℚ
  url : String
deriving DecidableEq, Repr

/-- `ClusterData` in the source: the current Selection. -/
structure ClusterData where
  clusterId : String
  markers : List Marker
  lat : ℚ
  lon : ℚ
deriving DecidableEq, Repr

/-! ## Asset loader (`loadScript` / `loadCss`) -/

/-- The parts of the DOM the asset loader inspects: the `src` attributes
of attached script elements and the `href` attributes of attached
stylesheet links, in attachment order. -/
structure Dom where
  scripts : List String
  links : List String
deriving DecidableEq, Repr

/-- `loadScript` from the source: if a script element with this `src` is
already in the document, resolve at once; otherwise append a new script
element.  The returned `Bool` records that a completion signal (the
promise) is produced on both paths. -/
def loadScript (doc : Dom) (src : String) : Dom × Bool :=
  if src ∈ doc.scripts then (doc, true)
  else ({ doc with scripts := doc.scripts ++ [src] }, true)

/-- `loadCss` from the source: fire-and-forget, append the link element
only when no link with this `href` exists yet. -/
def loadCss (doc : Dom) (href : String) : Dom :=
  if href ∈ doc.links then doc
  else { doc with links := doc.links ++ [href] }

/-! ## Marker rendering filter -/

/-- JavaScript truthiness of an optional numeric field: `undefined` and
`0` are falsy (`!m.lat` in the source). -/
def numTruthy : Option ℚ → Bool
  | none => false
  | some x => !(x == 0)

/-- The per-marker loop of `mountMap` skips an entry unless both `lat`
and `lon` are truthy (`if(!m.lat || !m.lon) return;`); the remaining
entries become clickable markers, in order. -/
def renderedMarkers (ms : List Marker) : List Marker :=
  ms.filter (fun m => numTruthy m.lat && numTruthy m.lon)

/-- The point of the spec's concrete scenario:
`lat=0, lon=0, url="/r/test/1"`. -/
def testPoint : Marker :=
  { id := none, lat := some 0, lon := some 0, url := "/r/test/1" }

/-! ## Cluster click handler -/

/-- Numeric value the cluster-click handler reads from a rendered
marker's data (`marker.options.markerData.lat`); rendered markers always
carry a value. -/
def numVal (x : Option ℚ) : ℚ := x.getD 0

/-- The `clusterclick` handler of `mountMap`: push every child marker's
data into `contained`, accumulate `avgLat`/`avgLng`, then divide by the
child count and emit the Selection. -/
def clusterClickSelection (leafletId : Int) (children : List Marker) : ClusterData :=
  let contained := children
  let avgLat := children.foldl (fun acc m => acc + numVal m.lat) 0
  let avgLng := children.foldl (fun acc m => acc + numVal m.lon) 0
  { clusterId := toString leafletId
    markers := contained
    lat := avgLat / children.length
    lon := avgLng / children.length }

/-! ## Cluster icon builder (`makeClusterIcon`) -/

/-- The real-valued `size` computed by `makeClusterIcon`:
`baseSize + Math.min(Math.sqrt(count - minCount) / Math.sqrt(maxCount -
minCount) * (maxSize - baseSize), maxSize - baseSize)` with
`baseSize = 32`, `maxSize = 48`, `minCount = 2`, `maxCount = 100`. -/
noncomputable def clusterIconSize (count : ℕ) : ℝ :=
  32 + min
    (Real.sqrt ((count : ℝ) - 2) / Real.sqrt (100 - 2) * (48 - 32))
    (48 - 32)

/-- `width` in `makeClusterIcon`: `Math.max(Math.round(size), baseSize)`.
This is the diameter of the rendered icon (`iconSize`). -/
noncomputable def clusterIconWidth (count : ℕ) : ℤ :=
  max (round (clusterIconSize count)) 32

/-- `innerWidth` in `makeClusterIcon`: `Math.round(width * 0.8)`. -/
noncomputable def clusterIconInner (count : ℕ) : ℤ :=
  round ((clusterIconWidth count : ℝ) * 0.8)

/-- `fontSize` in `makeClusterIcon`:
`Math.max(11, Math.min(14, Math.round(width * 0.35)))`. -/
noncomputable def clusterIconFont (count : ℕ) : ℤ :=
  max 11 (min 14 (round ((clusterIconWidth count : ℝ) * 0.35)))

/-- The diameter exactly as the spec sentence words it:
`diameter = base + min(sqrt(count-2)/sqrt(98) * (max-base), max-base)`,
an unrounded real number. -/
noncomputable def specDiameter (count : ℕ) : ℝ :=
  32 + min (Real.sqrt ((count : ℝ) - 2) / Real.sqrt 98 * (48 - 32)) (48 - 32)

/-- The inner diameter as the spec sentence words it:
`inner = round(diameter*0.8)` with the unrounded diameter. -/
noncomputable def specInner (count : ℕ) : ℤ :=
  round (specDiameter count * 0.8)

/-- The font size as the spec sentence words it:
`fontSize = clamp(round(diameter*0.35), 11, 14)` with the unrounded
diameter. -/
noncomputable def specFont (count : ℕ) : ℤ :=
  max 11 (min 14 (round (specDiameter count * 0.35)))

/-- Amended spec descriptor, diameter component: the diameter actually
returned is the rounded size, kept at least `base`:
`diameter = max(round(base + min(sqrt(count-2)/sqrt(98)*(max-base),
max-base)), base)`. -/
noncomputable def specAmendedDiameter (count : ℕ) : ℤ :=
  max (round (specDiameter count)) 32

/-- Amended spec descriptor, inner component: derived from the rounded
diameter, `inner = round(diameter * 0.8)`. -/
noncomputable def specAmendedInner (count : ℕ) : ℤ :=
  round ((specAmendedDiameter count : ℝ) * 0.8)

/-- Amended spec descriptor, font component: derived from the rounded
diameter, `fontSize = clamp(round(diameter * 0.35), 11, 14)`. -/
noncomputable def specAmendedFont (count : ℕ) : ℤ :=
  max 11 (min 14 (round ((specAmendedDiameter count : ℝ) * 0.35)))

/-! ## Library load flow (the `load` effect) -/

/-- The environment the library-load effect observes: whether `window.L`
is present after the Leaflet script resolves, whether
`window.L.markerClusterGroup` is a function after the first
markercluster load and after the retry, and how many markers are in the
store. -/
structure LoadEnv where
  leafletPresent : Bool
  mcgFirst : Bool
  mcgAfterRetry : Bool
  markersCount : ℕ
deriving DecidableEq, Repr

/-- Outcome of the load effect: how many extra times the extension
script was requested beyond the initial load, whether `mountMap` ran,
and whether the fatal-for-this-view error was logged. -/
structure LoadResult where
  extensionRetries : ℕ
  mounted : Bool
  errorLogged : Bool
deriving DecidableEq, Repr

/-- The control flow of the `load` effect in `MapView`: after both
scripts resolve, if `window.L` exists but `markerClusterGroup` is not a
function, `loadScript` for the extension is awaited once more; then the
map is mounted only if `window.L` exists, `markerClusterGroup` is a
function and the marker store is non-empty, otherwise
`console.error("Cannot mount map: ...")` runs. -/
def runLoad (env : LoadEnv) : LoadResult :=
  let retries := if env.leafletPresent && !env.mcgFirst then 1 else 0
  let mcgFinal :=
    if env.leafletPresent then
      (if env.mcgFirst then true else env.mcgAfterRetry)
    else env.mcgFirst
  let mounted := env.leafletPresent && mcgFinal && decide (0 < env.markersCount)
  { extensionRetries := retries
    mounted := mounted
    errorLogged := !mounted }

/-! ## Selection & pagination transition system

The component's state machine is driven by user events (marker/cluster
clicks, scroll-near-bottom, close) and by `setTimeout` callbacks.  The
source schedules two kinds of timeout and cleans up neither:

* the page-change effect's 300 ms reveal (`setTimeout` in the
  `[page, selectedCluster]` effect), which captures the `selectedCluster`
  and `page` of the render it ran in;
* `closePanel`'s 300 ms teardown.

React semantics mirrored here: all effects of a commit read that
render's state, so when a click changes `selectedCluster` both the reset
effect and the page-change effect run, the latter still seeing the
pre-click `page`. -/

def MARKERS_PER_PAGE : ℕ := 25

/-- A scheduled `setTimeout` callback with its captured closure data. -/
inductive TimerAction where
  /-- The page-change effect's reveal callback, capturing the cluster
  and page of the render that scheduled it. -/
  | reveal (cluster : ClusterData) (page : ℕ)
  /-- `closePanel`'s teardown callback. -/
  | closeSel
deriving DecidableEq, Repr

/-- A pending timeout: its absolute due time (ms) and its action. -/
structure Timer where
  due : ℕ
  action : TimerAction
deriving DecidableEq, Repr

/-- Does this timer hold a reveal callback? -/
def Timer.isReveal (tm : Timer) : Bool :=
  match tm.action with
  | TimerAction.reveal _ _ => true
  | TimerAction.closeSel => false

/-- The number of pending reveal callbacks. -/
def revealCount (ts : List Timer) : ℕ :=
  (ts.filter Timer.isReveal).length

/-- The component state: current wall-clock time, the React state
variables of `MapView`, and the pending timeouts (in scheduling
order). -/
structure UIState where
  now : ℕ
  selectedCluster : Option ClusterData
  visibleMarkers : List Marker
  page : ℕ
  hasMore : Bool
  showPanel : Bool
  loadingMore : Bool
  timers : List Timer
deriving DecidableEq, Repr

/-- The freshly mounted component: `useState` initial values
(`page = 1`, `hasMore = true`, everything else empty/false). -/
def initState : UIState :=
  { now := 0, selectedCluster := none, visibleMarkers := [], page := 1,
    hasMore := true, showPanel := false, loadingMore := false, timers := [] }

/-- A marker or cluster click at time `t` selecting `c`: the click
handler sets `selectedCluster` and `showPanel`; in the following commit
the reset effect runs (`setPage(1)`, first page of members, recompute
`hasMore`) and the page-change effect runs against the pre-click `page`,
scheduling a stale reveal when that page exceeds 1. -/
def applyClick (t : ℕ) (c : ClusterData) (s : UIState) : UIState :=
  { now := t
    selectedCluster := some c
    visibleMarkers := c.markers.take MARKERS_PER_PAGE
    page := 1
    hasMore := decide (MARKERS_PER_PAGE < c.markers.length)
    showPanel := true
    loadingMore := if 1 < s.page then true else s.loadingMore
    timers := s.timers ++
      (if 1 < s.page then [⟨t + 300, TimerAction.reveal c s.page⟩] else []) }

/-- A scroll-near-bottom event at time `t`: the handler returns at once
when `loadingMore` or `!hasMore`; otherwise `setPage(p => p+1)` runs and
the page-change effect sets `loadingMore` and schedules the 300 ms
reveal for the new page. -/
def applyScroll (t : ℕ) (s : UIState) : UIState :=
  match s.selectedCluster with
  | none => { s with now := t }
  | some c =>
    if s.loadingMore || !s.hasMore then { s with now := t }
    else
      { s with
        now := t
        page := s.page + 1
        loadingMore := true
        timers := s.timers ++ [⟨t + 300, TimerAction.reveal c (s.page + 1)⟩] }

/-- `closePanel` at time `t`: hide the panel and schedule the 300 ms
teardown. -/
def applyClose (t : ℕ) (s : UIState) : UIState :=
  { s with
    now := t
    showPanel := false
    timers := s.timers ++ [⟨t + 300, TimerAction.closeSel⟩] }

/-- Run a due timeout callback.  A reveal shows the captured cluster's
first `page * 25` members and recomputes `hasMore` from the captured
values; the teardown nulls the selection (which, when it actually
changes, re-runs the reset effect and so clears `hasMore`). -/
def fireTimer (tm : Timer) (rest : List Timer) (s : UIState) : UIState :=
  match tm.action with
  | TimerAction.reveal c p =>
    { s with
      now := tm.due
      timers := rest
      visibleMarkers := c.markers.take (p * MARKERS_PER_PAGE)
      hasMore := decide (p * MARKERS_PER_PAGE < c.markers.length)
      loadingMore := false }
  | TimerAction.closeSel =>
    { s with
      now := tm.due
      timers := rest
      selectedCluster := none
      visibleMarkers := []
      page := 1
      hasMore := if s.selectedCluster.isSome then false else s.hasMore }

/-- Pop the pending timer that fires next: earliest due time, earliest
scheduled among equal due times. -/
def popEarliest : List Timer → Option (Timer × List Timer)
  | [] => none
  | t :: ts =>
    if ts.all (fun u => t.due ≤ u.due) then some (t, ts)
    else
      match popEarliest ts with
      | none => some (t, ts)
      | some (u, rest) => some (u, t :: rest)

/-- An external stimulus or the event loop running a due timeout. -/
inductive Event where
  /-- A click on a rendered marker or cluster producing Selection `c`. -/
  | click (t : ℕ) (c : ClusterData)
  /-- A scroll-near-bottom event in the panel's list. -/
  | scroll (t : ℕ)
  /-- The close button or an outside pointer-down. -/
  | closePanel (t : ℕ)
  /-- The event loop fires the next due timeout. -/
  | fire
deriving DecidableEq, Repr

/-- A user event at time `t` is realisable only if no pending timeout
was already due strictly before `t`. -/
def userTimeOk (t : ℕ) (s : UIState) : Bool :=
  decide (s.now ≤ t) && s.timers.all (fun tm => decide (t ≤ tm.due))

/-- One step of the component.  Scroll and close require the panel's DOM
to exist, which it does exactly while a Selection is present. -/
def stepEvent : Event → UIState → Option UIState
  | Event.click t c, s =>
    if userTimeOk t s then some (applyClick t c s) else none
  | Event.scroll t, s =>
    if userTimeOk t s && s.selectedCluster.isSome
    then some (applyScroll t s) else none
  | Event.closePanel t, s =>
    if userTimeOk t s && s.selectedCluster.isSome
    then some (applyClose t s) else none
  | Event.fire, s =>
    match popEarliest s.timers with
    | none => none
    | some (tm, rest) => some (fireTimer tm rest s)

/-- Run a list of events from a state; `none` when some event is not
enabled. -/
def runTrace : List Event → UIState → Option UIState
  | [], s => some s
  | e :: es, s =>
    match stepEvent e s with
    | none => none
    | some s' => runTrace es s'

/-- The member list the panel actually renders: the panel subtree is
mounted only while `selectedCluster` is non-null. -/
def renderedList (s : UIState) : List Marker :=
  if s.selectedCluster.isSome then s.visibleMarkers else []

/-- Reachability along steps whose events satisfy a guard `G`
(instantiated per claim to carve out the event interleavings the claim
speaks about). -/
inductive Reach (G : UIState → Event → Prop) : UIState → UIState → Prop
  | refl (s : UIState) : Reach G s s
  | step {s s' s'' : UIState} (e : Event) :
      Reach G s s' → G s' e → stepEvent e s' = some s'' → Reach G s s''

/-! ## Timer-queue lemmas -/

theorem popEarliest_perm {ts : List Timer} {tm : Timer} {rest : List Timer}
    (h : popEarliest ts = some (tm, rest)) : List.Perm ts (tm :: rest) := by
  induction ts generalizing tm rest with
  | nil => simp [popEarliest] at h
  | cons t ts ih =>
    rw [popEarliest] at h
    by_cases hall : ts.all (fun u => t.due ≤ u.due)
    · rw [if_pos hall] at h
      simp only [Option.some.injEq, Prod.mk.injEq] at h
      obtain ⟨rfl, rfl⟩ := h
      exact List.Perm.refl _
    · rw [if_neg hall] at h
      cases hp : popEarliest ts with
      | none =>
        rw [hp] at h
        simp only [Option.some.injEq, Prod.mk.injEq] at h
        obtain ⟨rfl, rfl⟩ := h
        exact List.Perm.refl _
      | some ur =>
        obtain ⟨u, rest'⟩ := ur
        rw [hp] at h
        simp only [Option.some.injEq, Prod.mk.injEq] at h
        obtain ⟨rfl, rfl⟩ := h
        exact List.Perm.trans (List.Perm.cons t (ih hp)) (List.Perm.swap _ t rest')

theorem mem_of_popEarliest {ts : List Timer} {tm : Timer} {rest : List Timer}
    (h : popEarliest ts = some (tm, rest)) : tm ∈ ts :=
  (popEarliest_perm h).symm.subset (List.mem_cons_self _ _)

theorem rest_subset_of_popEarliest {ts : List Timer} {tm : Timer} {rest : List Timer}
    (h : popEarliest ts = some (tm, rest)) : ∀ u ∈ rest, u ∈ ts :=
  fun _ hu => (popEarliest_perm h).symm.subset (List.mem_cons_of_mem _ hu)

theorem revealCount_append (ts us : List Timer) :
    revealCount (ts ++ us) = revealCount ts + revealCount us := by
  simp [revealCount, List.filter_append]

theorem revealCount_popEarliest {ts : List Timer} {tm : Timer} {rest : List Timer}
    (h : popEarliest ts = some (tm, rest)) :
    revealCount ts = (if tm.isReveal then 1 else 0) + revealCount rest := by
  have hp : List.Perm (ts.filter Timer.isReveal) ((tm :: rest).filter Timer.isReveal) :=
    List.Perm.filter _ (popEarliest_perm h)
  have hl := hp.length_eq
  rw [List.filter_cons] at hl
  by_cases hr : tm.isReveal
  · rw [if_pos hr] at hl
    rw [if_pos hr]
    simpa [revealCount, Nat.add_comm] using hl
  · rw [if_neg hr] at hl
    rw [if_neg hr]
    simpa [revealCount] using hl

theorem revealCount_eq_zero {ts : List Timer} (h : revealCount ts = 0) :
    ∀ tm ∈ ts, tm.isReveal = false := by
  intro tm hm
  have : ts.filter Timer.isReveal = [] := List.length_eq_zero.mp h
  have := List.filter_eq_nil_iff.mp this tm hm
  simpa using this

theorem isReveal_of_action {tm : Timer} {c : ClusterData} {p : ℕ}
    (h : tm.action = TimerAction.reveal c p) : tm.isReveal = true := by
  simp [Timer.isReveal, h]

/-! ## Pagination invariant

`SettledInv` is the inductive strengthening of the spec's pagination
invariant.  It is preserved by every scroll, close and timeout step, and
by click steps taken while no reveal is pending and `page = 1` (the
"calm click" guard); the counterexamples below show it is *not*
preserved by clicks outside that guard. -/

def SettledInv (s : UIState) : Prop :=
  1 ≤ s.page ∧
  (s.loadingMore = false → revealCount s.timers = 0) ∧
  (s.loadingMore = true → revealCount s.timers = 1) ∧
  (s.loadingMore = false →
    ∀ c, s.selectedCluster = some c →
      s.visibleMarkers.length = min (s.page * MARKERS_PER_PAGE) c.markers.length ∧
      (s.hasMore = true ↔ s.page * MARKERS_PER_PAGE < c.markers.length)) ∧
  (s.loadingMore = true →
    ∀ tm, tm ∈ s.timers → tm.isReveal = true →
      ∀ c, s.selectedCluster = some c →
        tm.action = TimerAction.reveal c s.page ∧ 2 ≤ s.page ∧
        s.hasMore = true ∧ (s.page - 1) * MARKERS_PER_PAGE < c.markers.length ∧
        s.visibleMarkers.length = (s.page - 1) * MARKERS_PER_PAGE)

theorem settledInv_init : SettledInv initState := by
  refine ⟨le_refl 1, fun _ => rfl, ?_, ?_, ?_⟩
  · intro hl; simp [initState] at hl
  · intro _ c hc; simp [initState] at hc
  · intro hl; simp [initState] at hl

theorem settledInv_applyClick {s : UIState} (h : SettledInv s)
    (hcount : revealCount s.timers = 0) (hpage : s.page = 1)
    (t : ℕ) (c : ClusterData) : SettledInv (applyClick t c s) := by
  obtain ⟨h1, h2, h3, h4, h5⟩ := h
  have hnl : s.loadingMore = false := by
    cases hl : s.loadingMore
    · rfl
    · exfalso; have := h3 hl; omega
  have hlt : ¬ (1 < s.page) := by omega
  have hsimp : applyClick t c s =
      { now := t, selectedCluster := some c,
        visibleMarkers := c.markers.take MARKERS_PER_PAGE, page := 1,
        hasMore := decide (MARKERS_PER_PAGE < c.markers.length),
        showPanel := true, loadingMore := s.loadingMore, timers := s.timers } := by
    simp [applyClick, if_neg hlt]
  rw [hsimp]
  refine ⟨le_refl 1, fun _ => hcount, ?_, ?_, ?_⟩
  · intro hl; rw [hnl] at hl; cases hl
  · intro _ c' hc'
    obtain rfl : c = c' := by simpa using hc'
    constructor
    · simp [List.length_take]
    · simp
  · intro hl; rw [hnl] at hl; cases hl

theorem applyScroll_eq_none {t : ℕ} {s : UIState}
    (h : s.selectedCluster = none) :
    applyScroll t s = { s with now := t } := by
  unfold applyScroll; rw [h]

theorem applyScroll_eq_block {t : ℕ} {s : UIState} {c : ClusterData}
    (h : s.selectedCluster = some c)
    (hg : (s.loadingMore || !s.hasMore) = true) :
    applyScroll t s = { s with now := t } := by
  unfold applyScroll; rw [h]; exact if_pos hg

theorem applyScroll_eq_advance {t : ℕ} {s : UIState} {c : ClusterData}
    (h : s.selectedCluster = some c)
    (hg : ¬ (s.loadingMore || !s.hasMore) = true) :
    applyScroll t s =
      { s with
        now := t
        page := s.page + 1
        loadingMore := true
        timers := s.timers ++ [⟨t + 300, TimerAction.reveal c (s.page + 1)⟩] } := by
  unfold applyScroll; rw [h]; exact if_neg hg

theorem fireTimer_eq_reveal {tm : Timer} {rest : List Timer} {s : UIState}
    {c : ClusterData} {p : ℕ} (h : tm.action = TimerAction.reveal c p) :
    fireTimer tm rest s =
      { s with
        now := tm.due
        timers := rest
        visibleMarkers := c.markers.take (p * MARKERS_PER_PAGE)
        hasMore := decide (p * MARKERS_PER_PAGE < c.markers.length)
        loadingMore := false } := by
  unfold fireTimer; rw [h]

theorem fireTimer_eq_close {tm : Timer} {rest : List Timer} {s : UIState}
    (h : tm.action = TimerAction.closeSel) :
    fireTimer tm rest s =
      { s with
        now := tm.due
        timers := rest
        selectedCluster := none
        visibleMarkers := []
        page := 1
        hasMore := if s.selectedCluster.isSome then false else s.hasMore } := by
  unfold fireTimer; rw [h]

theorem settledInv_applyScroll {s : UIState} (h : SettledInv s) (t : ℕ) :
    SettledInv (applyScroll t s) := by
  obtain ⟨h1, h2, h3, h4, h5⟩ := h
  cases hsel : s.selectedCluster with
  | none =>
    rw [applyScroll_eq_none hsel]
    exact ⟨h1, h2, h3, h4, h5⟩
  | some c =>
    by_cases hg : (s.loadingMore || !s.hasMore) = true
    · rw [applyScroll_eq_block hsel hg]
      exact ⟨h1, h2, h3, h4, h5⟩
    · rw [applyScroll_eq_advance hsel hg]
      have hlm : s.loadingMore = false := by
        cases hl : s.loadingMore
        · rfl
        · exfalso; rw [hl] at hg; simp at hg
      have hhm : s.hasMore = true := by
        cases hh : s.hasMore
        · exfalso; rw [hh] at hg; simp [hlm] at hg
        · rfl
      obtain ⟨hlen, hiff⟩ := h4 hlm c hsel
      have hpm : s.page * MARKERS_PER_PAGE < c.markers.length := hiff.mp hhm
      refine ⟨Nat.le_add_left 1 s.page, ?_, ?_, ?_, ?_⟩
      · intro hl; cases hl
      · intro _
        show revealCount
          (s.timers ++ [⟨t + 300, TimerAction.reveal c (s.page + 1)⟩]) = 1
        rw [revealCount_append, h2 hlm]
        rfl
      · intro hl; cases hl
      · intro _ tm hm hr c' hc'
        have hc'' : s.selectedCluster = some c' := hc'
        rw [hsel] at hc''
        obtain rfl : c = c' := by simpa using hc''
        have hm' : tm ∈ s.timers ++ [⟨t + 300, TimerAction.reveal c (s.page + 1)⟩] := hm
        rcases List.mem_append.mp hm' with hin | hin
        · exfalso
          have := revealCount_eq_zero (h2 hlm) tm hin
          rw [hr] at this; cases this
        · obtain rfl : tm = ⟨t + 300, TimerAction.reveal c (s.page + 1)⟩ := by
            simpa using hin
          refine ⟨rfl, Nat.succ_le_succ h1, hhm, ?_, ?_⟩
          · rw [Nat.add_sub_cancel]; exact hpm
          · rw [hlen, Nat.add_sub_cancel, Nat.min_eq_left (le_of_lt hpm)]

theorem settledInv_applyClose {s : UIState} (h : SettledInv s) (t : ℕ) :
    SettledInv (applyClose t s) := by
  obtain ⟨h1, h2, h3, h4, h5⟩ := h
  have hc0 : revealCount [(⟨t + 300, TimerAction.closeSel⟩ : Timer)] = 0 := rfl
  refine ⟨h1, ?_, ?_, ?_, ?_⟩
  · intro hl
    show revealCount (s.timers ++ [⟨t + 300, TimerAction.closeSel⟩]) = 0
    rw [revealCount_append, h2 hl, hc0]
  · intro hl
    show revealCount (s.timers ++ [⟨t + 300, TimerAction.closeSel⟩]) = 1
    rw [revealCount_append, h3 hl, hc0]
  · intro hl c hc; exact h4 hl c hc
  · intro hl tm hm hr c hc
    rcases List.mem_append.mp hm with hin | hin
    · exact h5 hl tm hin hr c hc
    · exfalso
      obtain rfl : tm = ⟨t + 300, TimerAction.closeSel⟩ := by simpa using hin
      cases hr

theorem settledInv_fire {s : UIState} {tm : Timer} {rest : List Timer}
    (h : SettledInv s) (hp : popEarliest s.timers = some (tm, rest)) :
    SettledInv (fireTimer tm rest s) := by
  obtain ⟨h1, h2, h3, h4, h5⟩ := h
  cases hact : tm.action with
  | reveal c p =>
    rw [fireTimer_eq_reveal hact]
    have hrev : tm.isReveal = true := isReveal_of_action hact
    have hmem : tm ∈ s.timers := mem_of_popEarliest hp
    have hlm : s.loadingMore = true := by
      cases hl : s.loadingMore
      · exfalso
        have := revealCount_eq_zero (h2 hl) tm hmem
        rw [hrev] at this; cases this
      · rfl
    have hsplit := revealCount_popEarliest hp
    rw [if_pos hrev] at hsplit
    have hcnt := h3 hlm
    have hrest : revealCount rest = 0 := by omega
    refine ⟨h1, fun _ => hrest, ?_, ?_, ?_⟩
    · intro hl; cases hl
    · intro _ c' hc'
      have hc'' : s.selectedCluster = some c' := hc'
      have h5' := h5 hlm tm hmem hrev c' hc''
      obtain ⟨hact', _, _, _, _⟩ := h5'
      rw [hact] at hact'
      obtain ⟨rfl, rfl⟩ : c = c' ∧ p = s.page := by
        injection hact' with hcc hpp
        exact ⟨hcc, hpp⟩
      constructor
      · simp [List.length_take]
      · simp
    · intro hl; cases hl
  | closeSel =>
    rw [fireTimer_eq_close hact]
    have hnr : ¬ tm.isReveal = true := by simp [Timer.isReveal, hact]
    have hsplit := revealCount_popEarliest hp
    rw [if_neg hnr] at hsplit
    refine ⟨le_refl 1, ?_, ?_, ?_, ?_⟩
    · intro hl
      show revealCount rest = 0
      have := h2 hl
      omega
    · intro hl
      show revealCount rest = 1
      have := h3 hl
      omega
    · intro _ c hc; exact Option.noConfusion hc
    · intro _ tm' hm' hr' c hc; exact Option.noConfusion hc

/-- Guard for C1's amended statement: Selections are opened only while
no reveal is pending and `page = 1` (freshly mounted, or after a close
completed). -/
def calmClickGuard (s : UIState) (e : Event) : Prop :=
  ∀ t c, e = Event.click t c → revealCount s.timers = 0 ∧ s.page = 1

theorem settledInv_step {s s' : UIState} {e : Event} (h : SettledInv s)
    (hg : calmClickGuard s e) (hstep : stepEvent e s = some s') :
    SettledInv s' := by
  cases e with
  | click t c =>
    obtain ⟨hcount, hpage⟩ := hg t c rfl
    simp only [stepEvent] at hstep
    split at hstep
    · cases hstep
      exact settledInv_applyClick h hcount hpage t c
    · exact Option.noConfusion hstep
  | scroll t =>
    simp only [stepEvent] at hstep
    split at hstep
    · cases hstep
      exact settledInv_applyScroll h t
    · exact Option.noConfusion hstep
  | closePanel t =>
    simp only [stepEvent] at hstep
    split at hstep
    · cases hstep
      exact settledInv_applyClose h t
    · exact Option.noConfusion hstep
  | fire =>
    simp only [stepEvent] at hstep
    split at hstep
    · exact Option.noConfusion hstep
    · next tm rest heq =>
      cases hstep
      exact settledInv_fire h heq

theorem settledInv_reach {s s' : UIState} (h0 : SettledInv s)
    (h : Reach calmClickGuard s s') : SettledInv s' := by
  induction h with
  | refl => exact h0
  | step e hR hG hstep ih => exact settledInv_step ih hG hstep

/-! ## Prefix invariant (no leak of foreign members)

Provided every click happens while no reveal callback is pending, every
pending reveal belongs to the currently selected cluster and the visible
list is always a prefix of the current Selection's members. -/

def PrefixInv (s : UIState) : Prop :=
  ∀ c, s.selectedCluster = some c →
    (∀ tm, tm ∈ s.timers → ∀ c' p, tm.action = TimerAction.reveal c' p → c' = c) ∧
    ∃ k, s.visibleMarkers = c.markers.take k

/-- Guard for C6/C10's amended statements: Selections are opened only
while no reveal is pending. -/
def noStaleClickGuard (s : UIState) (e : Event) : Prop :=
  ∀ t c, e = Event.click t c → revealCount s.timers = 0

theorem prefixInv_init : PrefixInv initState := by
  intro c hc; exact Option.noConfusion hc

theorem prefixInv_applyClick {s : UIState} (_h : PrefixInv s)
    (hcount : revealCount s.timers = 0) (t : ℕ) (c : ClusterData) :
    PrefixInv (applyClick t c s) := by
  intro c' hc'
  obtain rfl : c = c' := by simpa [applyClick] using hc'
  constructor
  · intro tm hm c'' p hact
    have hm' : tm ∈ s.timers ++
        (if 1 < s.page then [⟨t + 300, TimerAction.reveal c s.page⟩] else []) := hm
    rcases List.mem_append.mp hm' with hin | hin
    · exfalso
      have := revealCount_eq_zero hcount tm hin
      rw [isReveal_of_action hact] at this; cases this
    · by_cases hp1 : 1 < s.page
      · rw [if_pos hp1] at hin
        obtain rfl : tm = ⟨t + 300, TimerAction.reveal c s.page⟩ := by
          simpa using hin
        injection hact with hcc hpp
        exact hcc.symm
      · rw [if_neg hp1] at hin
        exact absurd hin (List.not_mem_nil tm)
  · exact ⟨MARKERS_PER_PAGE, rfl⟩

theorem prefixInv_applyScroll {s : UIState} (h : PrefixInv s) (t : ℕ) :
    PrefixInv (applyScroll t s) := by
  cases hsel : s.selectedCluster with
  | none =>
    rw [applyScroll_eq_none hsel]
    intro c hc
    have hc' : s.selectedCluster = some c := hc
    rw [hsel] at hc'
    exact Option.noConfusion hc'
  | some c =>
    by_cases hg : (s.loadingMore || !s.hasMore) = true
    · rw [applyScroll_eq_block hsel hg]
      intro c' hc'
      exact h c' hc'
    · rw [applyScroll_eq_advance hsel hg]
      intro c' hc'
      have hc'' : s.selectedCluster = some c' := hc'
      obtain ⟨htm, hvis⟩ := h c' hc''
      constructor
      · intro tm hm c'' p hact
        have hm' : tm ∈ s.timers ++
            [⟨t + 300, TimerAction.reveal c (s.page + 1)⟩] := hm
        rcases List.mem_append.mp hm' with hin | hin
        · exact htm tm hin c'' p hact
        · obtain rfl : tm = ⟨t + 300, TimerAction.reveal c (s.page + 1)⟩ := by
            simpa using hin
          injection hact with hcc hpp
          rw [hsel] at hc''
          obtain rfl : c = c' := by simpa using hc''
          exact hcc.symm
      · exact hvis

theorem prefixInv_applyClose {s : UIState} (h : PrefixInv s) (t : ℕ) :
    PrefixInv (applyClose t s) := by
  intro c hc
  have hc' : s.selectedCluster = some c := hc
  obtain ⟨htm, hvis⟩ := h c hc'
  constructor
  · intro tm hm c' p hact
    have hm' : tm ∈ s.timers ++ [⟨t + 300, TimerAction.closeSel⟩] := hm
    rcases List.mem_append.mp hm' with hin | hin
    · exact htm tm hin c' p hact
    · exfalso
      obtain rfl : tm = ⟨t + 300, TimerAction.closeSel⟩ := by simpa using hin
      exact TimerAction.noConfusion hact
  · exact hvis

theorem prefixInv_fire {s : UIState} {tm : Timer} {rest : List Timer}
    (h : PrefixInv s) (hp : popEarliest s.timers = some (tm, rest)) :
    PrefixInv (fireTimer tm rest s) := by
  cases hact : tm.action with
  | reveal c p =>
    rw [fireTimer_eq_reveal hact]
    intro c' hc'
    have hc'' : s.selectedCluster = some c' := hc'
    obtain ⟨htm, hvis⟩ := h c' hc''
    have hcc : c = c' := htm tm (mem_of_popEarliest hp) c p hact
    subst hcc
    constructor
    · intro tm' hm' c'' p' hact'
      exact htm tm' (rest_subset_of_popEarliest hp tm' hm') c'' p' hact'
    · exact ⟨p * MARKERS_PER_PAGE, rfl⟩
  | closeSel =>
    rw [fireTimer_eq_close hact]
    intro c hc
    exact Option.noConfusion hc

theorem prefixInv_step {s s' : UIState} {e : Event} (h : PrefixInv s)
    (hg : noStaleClickGuard s e) (hstep : stepEvent e s = some s') :
    PrefixInv s' := by
  cases e with
  | click t c =>
    have hcount := hg t c rfl
    simp only [stepEvent] at hstep
    split at hstep
    · cases hstep
      exact prefixInv_applyClick h hcount t c
    · exact Option.noConfusion hstep
  | scroll t =>
    simp only [stepEvent] at hstep
    split at hstep
    · cases hstep
      exact prefixInv_applyScroll h t
    · exact Option.noConfusion hstep
  | closePanel t =>
    simp only [stepEvent] at hstep
    split at hstep
    · cases hstep
      exact prefixInv_applyClose h t
    · exact Option.noConfusion hstep
  | fire =>
    simp only [stepEvent] at hstep
    split at hstep
    · exact Option.noConfusion hstep
    · next tm rest heq =>
      cases hstep
      exact prefixInv_fire h heq

theorem prefixInv_reach {s s' : UIState} (h0 : PrefixInv s)
    (h : Reach noStaleClickGuard s s') : PrefixInv s' := by
  induction h with
  | refl => exact h0
  | step e hR hG hstep ih => exact prefixInv_step ih hG hstep

/-! ## Backpressure invariant (C9)

Within scroll and timeout-firing steps, `loadingMore` tracks exactly
whether a reveal callback is pending, so at most one reveal is ever in
flight and a scroll during the settling delay is a no-op. -/

def BackpressureInv (s : UIState) : Prop :=
  (s.loadingMore = false → revealCount s.timers = 0) ∧
  (s.loadingMore = true → revealCount s.timers = 1)

/-- Guard for C9: only scroll events and timeout firings (the claim
quantifies over sequences of scroll events while the panel is open). -/
def scrollFireGuard (_s : UIState) (e : Event) : Prop :=
  match e with
  | Event.scroll _ => True
  | Event.fire => True
  | _ => False

theorem backpressureInv_applyScroll {s : UIState} (h : BackpressureInv s)
    (t : ℕ) : BackpressureInv (applyScroll t s) := by
  obtain ⟨h2, h3⟩ := h
  cases hsel : s.selectedCluster with
  | none =>
    rw [applyScroll_eq_none hsel]
    exact ⟨h2, h3⟩
  | some c =>
    by_cases hg : (s.loadingMore || !s.hasMore) = true
    · rw [applyScroll_eq_block hsel hg]
      exact ⟨h2, h3⟩
    · rw [applyScroll_eq_advance hsel hg]
      have hlm : s.loadingMore = false := by
        cases hl : s.loadingMore
        · rfl
        · exfalso; rw [hl] at hg; simp at hg
      constructor
      · intro hl; cases hl
      · intro _
        show revealCount
          (s.timers ++ [⟨t + 300, TimerAction.reveal c (s.page + 1)⟩]) = 1
        rw [revealCount_append, h2 hlm]
        rfl

theorem backpressureInv_fire {s : UIState} {tm : Timer} {rest : List Timer}
    (h : BackpressureInv s) (hp : popEarliest s.timers = some (tm, rest)) :
    BackpressureInv (fireTimer tm rest s) := by
  obtain ⟨h2, h3⟩ := h
  have hsplit := revealCount_popEarliest hp
  cases hact : tm.action with
  | reveal c p =>
    rw [fireTimer_eq_reveal hact]
    have hrev : tm.isReveal = true := isReveal_of_action hact
    rw [if_pos hrev] at hsplit
    have hlm : s.loadingMore = true := by
      cases hl : s.loadingMore
      · exfalso
        have := revealCount_eq_zero (h2 hl) tm (mem_of_popEarliest hp)
        rw [hrev] at this; cases this
      · rfl
    have hcnt := h3 hlm
    constructor
    · intro _
      show revealCount rest = 0
      omega
    · intro hl; cases hl
  | closeSel =>
    rw [fireTimer_eq_close hact]
    have hnr : ¬ tm.isReveal = true := by simp [Timer.isReveal, hact]
    rw [if_neg hnr] at hsplit
    constructor
    · intro hl
      show revealCount rest = 0
      have := h2 hl
      omega
    · intro hl
      show revealCount rest = 1
      have := h3 hl
      omega

theorem backpressureInv_step {s s' : UIState} {e : Event}
    (h : BackpressureInv s) (hg : scrollFireGuard s e)
    (hstep : stepEvent e s = some s') : BackpressureInv s' := by
  cases e with
  | click t c => exact absurd hg (by simp [scrollFireGuard])
  | closePanel t => exact absurd hg (by simp [scrollFireGuard])
  | scroll t =>
    simp only [stepEvent] at hstep
    split at hstep
    · cases hstep
      exact backpressureInv_applyScroll h t
    · exact Option.noConfusion hstep
  | fire =>
    simp only [stepEvent] at hstep
    split at hstep
    · exact Option.noConfusion hstep
    · next tm rest heq =>
      cases hstep
      exact backpressureInv_fire h heq

theorem backpressureInv_reach {s s' : UIState} (h0 : BackpressureInv s)
    (h : Reach scrollFireGuard s s') : BackpressureInv s' := by
  induction h with
  | refl => exact h0
  | step e hR hG hstep ih => exact backpressureInv_step ih hG hstep

/-! ## Concrete data for the counterexample traces -/

/-- A rendered marker with index `i` (non-zero coordinates, so it passes
the render filter). -/
def mkMarker (i : ℕ) : Marker :=
  ⟨some (i : Int), some 1, some 1, toString i⟩

/-- A cluster of 26 markers: one more than a page, so `hasMore` is true
after opening it. -/
def cexA : ClusterData := ⟨"a", (List.range 26).map mkMarker, 0, 0⟩

/-- A second, disjoint cluster of 26 markers. -/
def cexB : ClusterData :=
  ⟨"b", (List.range 26).map (fun i => mkMarker (100 + i)), 0, 0⟩

/-- A single-marker Selection (as produced by a direct marker click). -/
def cexS : ClusterData := ⟨"s", [mkMarker 500], 0, 0⟩

/-- Open `cexA`, scroll to page 2, let the reveal settle, then open
`cexB`: the click while `page = 2` makes the page-change effect schedule
a stale reveal of page 2 for the new Selection. -/
def reopenTrace : List Event :=
  [Event.click 0 cexA, Event.scroll 100, Event.fire,
   Event.click 500 cexB, Event.fire]

/-- The state `reopenTrace` ends in: settled, `page = 1`, but all 26 of
`cexB`'s members revealed. -/
def reopenFinal : UIState :=
  { now := 800, selectedCluster := some cexB, visibleMarkers := cexB.markers,
    page := 1, hasMore := false, showPanel := true, loadingMore := false,
    timers := [] }

/-- Open `cexA`, scroll (reveal of page 2 pending for 400 ms), close the
panel at 200 ms, reopen with `cexS` at 300 ms; the uncancelled reveal of
`cexA` then fires at 400 ms. -/
def leakTrace : List Event :=
  [Event.click 0 cexA, Event.scroll 100, Event.closePanel 200,
   Event.click 300 cexS, Event.fire]

/-- The state `leakTrace` ends in: `cexS` is selected and the panel
shown, but the visible list holds `cexA`'s 26 members. -/
def leakFinal : UIState :=
  { now := 400, selectedCluster := some cexS, visibleMarkers := cexA.markers,
    page := 1, hasMore := false, showPanel := true, loadingMore := false,
    timers := [⟨500, TimerAction.closeSel⟩, ⟨600, TimerAction.reveal cexS 2⟩] }

/-! ## Claim C1 -/

/-- C1 counterexample: the claimed invariant
`revealedCount = min(page * 25, members.length)` fails at a settled
state.  After opening a 26-member Selection, scrolling to page 2 and
letting the reveal settle, opening a new 26-member Selection schedules a
stale page-2 reveal (the page-change effect runs with the pre-click
page and no cleanup cancels it); once it fires the state is settled
(no pending timers, not loading) with `page = 1` but 26 visible
members, not `min(25, 26) = 25`. -/
theorem paginationInvariant_fails_after_reopen :
    runTrace reopenTrace initState = some reopenFinal ∧
    reopenFinal.timers = [] ∧
    reopenFinal.loadingMore = false ∧
    reopenFinal.selectedCluster = some cexB ∧
    reopenFinal.visibleMarkers.length ≠
      min (reopenFinal.page * MARKERS_PER_PAGE) cexB.markers.length := by
  refine ⟨by rfl, rfl, rfl, rfl, by decide⟩

/-- C1 (amended): provided every Selection is opened while `page = 1`
and no reveal is pending, at every settled state (no pending reveal)
with an open Selection the pagination invariant holds:
`revealedCount = min(page * 25, members.length)` and
`hasMore ↔ revealedCount < members.length`; moreover any click
immediately resets `page` to 1 and the visible list to the first
`min(25, members.length)` members. -/
theorem paginationInvariant_settled_calm (s : UIState)
    (h : Reach calmClickGuard initState s)
    (c : ClusterData) (hc : s.selectedCluster = some c)
    (hnr : revealCount s.timers = 0) :
    (s.visibleMarkers.length =
        min (s.page * MARKERS_PER_PAGE) c.markers.length ∧
      (s.hasMore = true ↔ s.visibleMarkers.length < c.markers.length)) ∧
    (∀ t c' s', stepEvent (Event.click t c') s = some s' →
      s'.page = 1 ∧
      s'.visibleMarkers = c'.markers.take MARKERS_PER_PAGE ∧
      s'.visibleMarkers.length = min MARKERS_PER_PAGE c'.markers.length) := by
  obtain ⟨h1, h2, h3, h4, h5⟩ := settledInv_reach settledInv_init h
  have hlm : s.loadingMore = false := by
    cases hl : s.loadingMore
    · rfl
    · exfalso; have := h3 hl; omega
  obtain ⟨hlen, hiff⟩ := h4 hlm c hc
  constructor
  · refine ⟨hlen, ?_⟩
    rw [hlen]
    constructor
    · intro hh
      have := hiff.mp hh
      omega
    · intro hh
      apply hiff.mpr
      omega
  · intro t c' s' hstep
    simp only [stepEvent] at hstep
    split at hstep
    · cases hstep
      refine ⟨rfl, rfl, ?_⟩
      show (c'.markers.take MARKERS_PER_PAGE).length = _
      rw [List.length_take]
    · exact Option.noConfusion hstep

/-- The state after clicking the single-marker Selection from the
freshly mounted component. -/
def openS : UIState := applyClick 0 cexS initState

theorem reach_openS_calm : Reach calmClickGuard initState openS := by
  refine Reach.step (Event.click 0 cexS) (Reach.refl _) ?_ ?_
  · intro t c _
    exact ⟨rfl, rfl⟩
  · rfl

theorem reach_openS_noStale : Reach noStaleClickGuard initState openS := by
  refine Reach.step (Event.click 0 cexS) (Reach.refl _) ?_ ?_
  · intro t c _
    exact rfl
  · rfl

/-- Witness for C1's amended theorem at a concrete calm trace. -/
theorem paginationInvariant_settled_calm_witness :
    openS.visibleMarkers.length =
      min (openS.page * MARKERS_PER_PAGE) cexS.markers.length ∧
    (openS.hasMore = true ↔
      openS.visibleMarkers.length < cexS.markers.length) :=
  (paginationInvariant_settled_calm openS reach_openS_calm cexS rfl rfl).1

/-! ## Claim C6 -/

/-- C6 counterexample: with a reveal pending, closing the panel and
reopening with a different Selection leaks the previous Selection's
members.  Open the 26-member `cexA`, scroll (reveal due at 400 ms),
close at 200 ms, click the single-marker `cexS` at 300 ms: at 400 ms the
uncancelled reveal fires and puts `cexA`'s members into the visible
list while `cexS` is the selected Selection and the panel is shown. -/
theorem selection_leak_counterexample :
    runTrace leakTrace initState = some leakFinal ∧
    leakFinal.selectedCluster = some cexS ∧
    leakFinal.showPanel = true ∧
    mkMarker 0 ∈ leakFinal.visibleMarkers ∧
    mkMarker 0 ∈ cexA.markers ∧
    mkMarker 0 ∉ cexS.markers := by
  refine ⟨by rfl, rfl, rfl, by decide, by decide, by decide⟩

/-- C6 (amended): provided every Selection is opened while no reveal is
pending, no member outside the currently selected Selection's members is
ever visible — closing and reopening cannot leak the previous
Selection's members. -/
theorem selection_noLeak_calm (s : UIState)
    (h : Reach noStaleClickGuard initState s)
    (c : ClusterData) (hc : s.selectedCluster = some c)
    (m : Marker) (hm : m ∈ s.visibleMarkers) : m ∈ c.markers := by
  obtain ⟨-, k, hvis⟩ := prefixInv_reach prefixInv_init h c hc
  rw [hvis] at hm
  exact List.take_subset k c.markers hm

/-- Witness for C6's amended theorem at a concrete calm trace. -/
theorem selection_noLeak_calm_witness : mkMarker 500 ∈ cexS.markers :=
  selection_noLeak_calm openS reach_openS_noStale cexS rfl (mkMarker 500)
    (by decide)

/-! ## Claim C10 -/

/-- C10 counterexample: after `leakTrace`, a Selection (`cexS`) exists
but the rendered member list is `cexA`'s 26 members, which is not
`cexS.markers.take k` for any `k` (every such prefix has at most one
element). -/
theorem visible_prefix_counterexample :
    runTrace leakTrace initState = some leakFinal ∧
    leakFinal.selectedCluster = some cexS ∧
    (∀ k, renderedList leakFinal ≠ cexS.markers.take k) := by
  refine ⟨by rfl, rfl, ?_⟩
  intro k hk
  have hlen := congrArg List.length hk
  rw [List.length_take] at hlen
  have h26 : (renderedList leakFinal).length = 26 := by decide
  have h1 : cexS.markers.length = 1 := by decide
  rw [h26, h1] at hlen
  omega

/-- C10 (amended): provided every Selection is opened while no reveal is
pending, the rendered member list is an in-order prefix of the current
Selection's members whenever a Selection exists, and is empty whenever
none exists (the panel subtree is unmounted; the internal `hasMore`
flag, however, starts out `true` and is not reset by stale reveals). -/
theorem visible_prefix_calm (s : UIState)
    (h : Reach noStaleClickGuard initState s) :
    (∀ c, s.selectedCluster = some c →
      ∃ k, renderedList s = c.markers.take k) ∧
    (s.selectedCluster = none → renderedList s = []) := by
  have hinv := prefixInv_reach prefixInv_init h
  constructor
  · intro c hc
    obtain ⟨-, k, hvis⟩ := hinv c hc
    exact ⟨k, by simp [renderedList, hc, hvis]⟩
  · intro hc
    simp [renderedList, hc]

/-- Witness for C10's amended theorem: the freshly mounted component has
no Selection and renders nothing. -/
theorem visible_prefix_calm_witness : renderedList initState = [] :=
  (visible_prefix_calm initState (Reach.refl _)).2 rfl

/-! ## Claim C9 -/

/-- C9: along any sequence of scroll events and timeout firings from a
state where `loadingMore` matches the pending-reveal count (as at any
freshly opened Selection), at most one reveal is in flight; a scroll
while `loadingMore` is a no-op (no second page advance starts), and an
effective scroll advances the page by exactly one and schedules exactly
one reveal. -/
theorem reveal_backpressure (s0 s : UIState) (h0 : BackpressureInv s0)
    (h : Reach scrollFireGuard s0 s) :
    revealCount s.timers ≤ 1 ∧
    ∀ t s', stepEvent (Event.scroll t) s = some s' →
      (s.loadingMore = true → s'.page = s.page ∧ s'.timers = s.timers) ∧
      (s.loadingMore = false → s.hasMore = true →
        s'.page = s.page + 1 ∧
        revealCount s'.timers = revealCount s.timers + 1) := by
  obtain ⟨h2, h3⟩ := backpressureInv_reach h0 h
  constructor
  · cases hl : s.loadingMore
    · rw [h2 hl]
      omega
    · rw [h3 hl]
  · intro t s' hstep
    simp only [stepEvent] at hstep
    by_cases hcond : (userTimeOk t s && s.selectedCluster.isSome) = true
    · rw [if_pos hcond] at hstep
      have hsel : s.selectedCluster.isSome = true :=
        (Bool.and_eq_true _ _ |>.mp hcond).2
      obtain ⟨c, hc⟩ := Option.isSome_iff_exists.mp hsel
      cases hstep
      constructor
      · intro hl
        have hg : (s.loadingMore || !s.hasMore) = true := by rw [hl]; rfl
        rw [applyScroll_eq_block hc hg]
        exact ⟨rfl, rfl⟩
      · intro hl hh
        have hg : ¬ (s.loadingMore || !s.hasMore) = true := by
          rw [hl, hh]
          simp
        rw [applyScroll_eq_advance hc hg]
        refine ⟨rfl, ?_⟩
        show revealCount
          (s.timers ++ [⟨t + 300, TimerAction.reveal c (s.page + 1)⟩]) = _
        rw [revealCount_append]
        rfl
    · rw [if_neg hcond] at hstep
      exact Option.noConfusion hstep

theorem backpressureInv_openS : BackpressureInv openS :=
  ⟨fun _ => rfl, fun hl => nomatch hl⟩

/-- Witness for C9 at a concrete open state. -/
theorem reveal_backpressure_witness : revealCount openS.timers ≤ 1 :=
  (reveal_backpressure openS openS backpressureInv_openS (Reach.refl _)).1

/-! ## Claim C2 -/

/-- C2: clicking a cluster produces a Selection whose members are
exactly the cluster's child markers (in order) and whose center
coordinates are the arithmetic means of the members' `lat` and `lon`
fields. -/
theorem clusterClick_members_and_mean (i : Int) (children : List Marker)
    (_h : children ≠ []) :
    (clusterClickSelection i children).markers = children ∧
    (clusterClickSelection i children).lat =
      (children.map (fun m => numVal m.lat)).sum / children.length ∧
    (clusterClickSelection i children).lon =
      (children.map (fun m => numVal m.lon)).sum / children.length := by
  refine ⟨rfl, ?_, ?_⟩
  · show (children.foldl (fun acc m => acc + numVal m.lat) 0) /
        (children.length : ℚ) = _
    rw [List.sum_eq_foldl, List.foldl_map]
  · show (children.foldl (fun acc m => acc + numVal m.lon) 0) /
        (children.length : ℚ) = _
    rw [List.sum_eq_foldl, List.foldl_map]

/-- Witness for C2 at a concrete two-marker cluster. -/
theorem clusterClick_members_and_mean_witness :
    (clusterClickSelection 7 [mkMarker 1, mkMarker 2]).markers =
      [mkMarker 1, mkMarker 2] ∧
    (clusterClickSelection 7 [mkMarker 1, mkMarker 2]).lat =
      ([mkMarker 1, mkMarker 2].map (fun m => numVal m.lat)).sum /
        ([mkMarker 1, mkMarker 2] : List Marker).length ∧
    (clusterClickSelection 7 [mkMarker 1, mkMarker 2]).lon =
      ([mkMarker 1, mkMarker 2].map (fun m => numVal m.lon)).sum /
        ([mkMarker 1, mkMarker 2] : List Marker).length :=
  clusterClick_members_and_mean 7 [mkMarker 1, mkMarker 2] (by decide)

/-! ## Claim C5 -/

/-- C5 (code bug): the spec's concrete scenario point with
`lat = 0, lon = 0, url = "/r/test/1"` has both coordinates present, yet
the render loop's truthiness check `if(!m.lat || !m.lon) return;`
treats the number `0` as missing and skips it, so no marker is rendered
and it can never be clicked — contradicting the spec's scenario and the
statement that only entries actually missing `lat`/`lon` are skipped. -/
theorem zeroLatLon_point_skipped :
    testPoint.lat = some 0 ∧ testPoint.lon = some 0 ∧
    renderedMarkers [testPoint] = [] ∧
    renderedMarkers [mkMarker 3] = [mkMarker 3] := by
  exact ⟨rfl, rfl, by decide, by decide⟩

/-! ## Claim C7 -/

/-- C7: when Leaflet is present but `markerClusterGroup` is not a
function after the first extension load, the component requests the
extension script exactly once more; if the capability is still missing
after that retry the map is not mounted and the error is logged. -/
theorem plugin_missing_retry_once (env : LoadEnv)
    (hL : env.leafletPresent = true) (hm : env.mcgFirst = false) :
    (runLoad env).extensionRetries = 1 ∧
    (env.mcgAfterRetry = false →
      (runLoad env).mounted = false ∧ (runLoad env).errorLogged = true) := by
  constructor
  · simp [runLoad, hL, hm]
  · intro hr
    constructor
    · simp [runLoad, hL, hm, hr]
    · simp [runLoad, hL, hm, hr]

/-- Witness for C7 at a concrete environment. -/
theorem plugin_missing_retry_once_witness :
    (runLoad ⟨true, false, false, 5⟩).extensionRetries = 1 ∧
    ((⟨true, false, false, 5⟩ : LoadEnv).mcgAfterRetry = false →
      (runLoad ⟨true, false, false, 5⟩).mounted = false ∧
      (runLoad ⟨true, false, false, 5⟩).errorLogged = true) :=
  plugin_missing_retry_once ⟨true, false, false, 5⟩ rfl rfl

/-! ## Claim C8 -/

theorem loadScript_of_mem {d : Dom} {src : String} (h : src ∈ d.scripts) :
    loadScript d src = (d, true) := by
  unfold loadScript
  rw [if_pos h]

theorem mem_loadScript (d : Dom) (src : String) :
    src ∈ (loadScript d src).1.scripts := by
  unfold loadScript
  split
  · next h => exact h
  · show src ∈ d.scripts ++ [src]
    exact List.mem_append.mpr (Or.inr (List.mem_singleton.mpr rfl))

theorem loadCss_of_mem {d : Dom} {href : String} (h : href ∈ d.links) :
    loadCss d href = d := by
  unfold loadCss
  rw [if_pos h]

theorem mem_loadCss (d : Dom) (href : String) :
    href ∈ (loadCss d href).links := by
  unfold loadCss
  split
  · next h => exact h
  · show href ∈ d.links ++ [href]
    exact List.mem_append.mpr (Or.inr (List.mem_singleton.mpr rfl))

/-- C8: the asset loader attaches a given script or stylesheet URL at
most once (the attached count is the old count capped up to one, so a
URL never gains a second element), a repeated call is a no-op on the
document, and a repeated script call still returns the completion
signal. -/
theorem asset_loader_idempotent (d : Dom) (src href : String) :
    (loadScript d src).2 = true ∧
    (loadScript d src).1.scripts.count src = max (d.scripts.count src) 1 ∧
    loadScript (loadScript d src).1 src = ((loadScript d src).1, true) ∧
    loadCss (loadCss d href) href = loadCss d href ∧
    (loadCss d href).links.count href = max (d.links.count href) 1 := by
  refine ⟨?_, ?_, ?_, ?_, ?_⟩
  · unfold loadScript
    split
    · rfl
    · rfl
  · unfold loadScript
    by_cases hmem : src ∈ d.scripts
    · rw [if_pos hmem]
      have h1 : 1 ≤ d.scripts.count src := List.count_pos_iff.mpr hmem
      show d.scripts.count src = _
      omega
    · rw [if_neg hmem]
      have h0 : d.scripts.count src = 0 := List.count_eq_zero.mpr hmem
      show (d.scripts ++ [src]).count src = _
      rw [List.count_append, h0]
      simp
  · exact loadScript_of_mem (mem_loadScript d src)
  · exact loadCss_of_mem (mem_loadCss d href)
  · unfold loadCss
    by_cases hmem : href ∈ d.links
    · rw [if_pos hmem]
      have h1 : 1 ≤ d.links.count href := List.count_pos_iff.mpr hmem
      omega
    · rw [if_neg hmem]
      have h0 : d.links.count href = 0 := List.count_eq_zero.mpr hmem
      show (d.links ++ [href]).count href = _
      rw [List.count_append, h0]
      simp

/-- Witness for C8 at a concrete empty document. -/
theorem asset_loader_idempotent_witness :
    (loadScript ⟨[], []⟩ "leaflet.js").2 = true ∧
    (loadScript ⟨[], []⟩ "leaflet.js").1.scripts.count "leaflet.js" =
      max ((⟨[], []⟩ : Dom).scripts.count "leaflet.js") 1 ∧
    loadScript (loadScript ⟨[], []⟩ "leaflet.js").1 "leaflet.js" =
      ((loadScript ⟨[], []⟩ "leaflet.js").1, true) ∧
    loadCss (loadCss ⟨[], []⟩ "leaflet.css") "leaflet.css" =
      loadCss ⟨[], []⟩ "leaflet.css" ∧
    (loadCss ⟨[], []⟩ "leaflet.css").links.count "leaflet.css" =
      max ((⟨[], []⟩ : Dom).links.count "leaflet.css") 1 :=
  asset_loader_idempotent ⟨[], []⟩ "leaflet.js" "leaflet.css"

/-! ## Claims C3 and C4 -/

theorem sqrt8_div_sqrt98 : Real.sqrt 8 / Real.sqrt 98 = 2 / 7 := by
  rw [show (8:ℝ) = 4 * 2 by norm_num, show (98:ℝ) = 49 * 2 by norm_num]
  rw [Real.sqrt_mul (by norm_num : (0:ℝ) ≤ 4),
    Real.sqrt_mul (by norm_num : (0:ℝ) ≤ 49)]
  rw [show Real.sqrt 4 = 2 by
    rw [show (4:ℝ) = 2^2 by norm_num]; exact Real.sqrt_sq (by norm_num)]
  rw [show Real.sqrt 49 = 7 by
    rw [show (49:ℝ) = 7^2 by norm_num]; exact Real.sqrt_sq (by norm_num)]
  rw [mul_div_mul_right _ _
    (ne_of_gt (Real.sqrt_pos.mpr (by norm_num : (0:ℝ) < 2)))]

theorem clusterIconSize_ten : clusterIconSize 10 = 256 / 7 := by
  unfold clusterIconSize
  rw [show ((10:ℕ):ℝ) - 2 = 8 by norm_num]
  rw [show (100:ℝ) - 2 = 98 by norm_num]
  rw [show (48:ℝ) - 32 = 16 by norm_num]
  rw [sqrt8_div_sqrt98]
  rw [show (2:ℝ)/7 * 16 = 32/7 by norm_num]
  rw [min_eq_left (by norm_num : (32:ℝ)/7 ≤ 16)]
  norm_num

theorem specDiameter_ten : specDiameter 10 = 256 / 7 := by
  unfold specDiameter
  rw [show ((10:ℕ):ℝ) - 2 = 8 by norm_num]
  rw [show (48:ℝ) - 32 = 16 by norm_num]
  rw [sqrt8_div_sqrt98]
  rw [show (2:ℝ)/7 * 16 = 32/7 by norm_num]
  rw [min_eq_left (by norm_num : (32:ℝ)/7 ≤ 16)]
  norm_num

theorem clusterIconWidth_ten : clusterIconWidth 10 = 37 := by
  unfold clusterIconWidth
  rw [clusterIconSize_ten]
  rw [show round ((256:ℝ)/7) = 37 by norm_num [round_eq]]
  rfl

theorem clusterIconInner_ten : clusterIconInner 10 = 30 := by
  unfold clusterIconInner
  rw [clusterIconWidth_ten]
  norm_num [round_eq]

theorem specInner_ten : specInner 10 = 29 := by
  unfold specInner
  rw [specDiameter_ten]
  norm_num [round_eq]

/-- C3 counterexample: at `count = 10` the builder does not return the
spec's descriptor.  The code rounds the size before deriving the other
components (`width = max(round(size), 32)`), so the returned diameter is
`37`, not the spec's unrounded `32 + sqrt(8)/sqrt(98)*16 = 256/7`, and
the inner diameter is `round(37*0.8) = 30`, not the spec's
`round(256/7*0.8) = 29`. -/
theorem clusterIcon_spec_descriptor_fails :
    ((clusterIconWidth 10 : ℝ) ≠ specDiameter 10) ∧
    clusterIconInner 10 ≠ specInner 10 := by
  constructor
  · rw [clusterIconWidth_ten, specDiameter_ten]
    norm_num
  · rw [clusterIconInner_ten, specInner_ten]
    decide

/-- C3 (amended): for every count in `[2,100]` the builder returns the
descriptor with `diameter = max(round(32 + min(sqrt(count-2)/sqrt(98) *
16, 16)), 32)`, `inner = round(diameter * 0.8)` and
`fontSize = clamp(round(diameter * 0.35), 11, 14)`, where `inner` and
`fontSize` are derived from the rounded diameter. -/
theorem clusterIcon_amended_descriptor (count : ℕ)
    (_h2 : 2 ≤ count) (_h100 : count ≤ 100) :
    clusterIconWidth count = specAmendedDiameter count ∧
    clusterIconInner count = specAmendedInner count ∧
    clusterIconFont count = specAmendedFont count := by
  have hsize : clusterIconSize count = specDiameter count := by
    unfold clusterIconSize specDiameter
    norm_num
  have hw : clusterIconWidth count = specAmendedDiameter count := by
    unfold clusterIconWidth specAmendedDiameter
    rw [hsize]
  refine ⟨hw, ?_, ?_⟩
  · unfold clusterIconInner specAmendedInner
    rw [hw]
  · unfold clusterIconFont specAmendedFont
    rw [hw]

/-- Witness for C3's amended theorem at `count = 10`. -/
theorem clusterIcon_amended_descriptor_witness :
    (2 ≤ 10 ∧ 10 ≤ 100) ∧ clusterIconWidth 10 = specAmendedDiameter 10 :=
  ⟨⟨by norm_num, by norm_num⟩,
    (clusterIcon_amended_descriptor 10 (by norm_num) (by norm_num)).1⟩

theorem clusterIconSize_mono {c1 c2 : ℕ} (h : c1 ≤ c2) :
    clusterIconSize c1 ≤ clusterIconSize c2 := by
  unfold clusterIconSize
  apply add_le_add_left
  apply min_le_min _ (le_refl _)
  apply mul_le_mul_of_nonneg_right _ (by norm_num : (0:ℝ) ≤ 48 - 32)
  rw [div_eq_mul_inv, div_eq_mul_inv]
  apply mul_le_mul_of_nonneg_right _
    (inv_nonneg.mpr (Real.sqrt_nonneg _))
  apply Real.sqrt_le_sqrt
  have : (c1:ℝ) ≤ (c2:ℝ) := Nat.cast_le.mpr h
  linarith

theorem clusterIconSize_le_48 (c : ℕ) : clusterIconSize c ≤ 48 := by
  unfold clusterIconSize
  have := min_le_right
    (Real.sqrt ((c:ℝ) - 2) / Real.sqrt (100 - 2) * (48 - 32)) ((48:ℝ) - 32)
  linarith

/-- C4: on `[2,100]` the rendered diameter is monotonically
non-decreasing in the child count and always lies in `[32, 48]`. -/
theorem clusterIcon_monotone_bounded (c1 c2 : ℕ)
    (_h1 : 2 ≤ c1) (h12 : c1 ≤ c2) (_h2 : c2 ≤ 100) :
    clusterIconWidth c1 ≤ clusterIconWidth c2 ∧
    32 ≤ clusterIconWidth c1 ∧ clusterIconWidth c1 ≤ 48 := by
  refine ⟨?_, ?_, ?_⟩
  · apply max_le_max _ (le_refl (32:ℤ))
    rw [round_eq, round_eq]
    exact Int.floor_le_floor (by linarith [clusterIconSize_mono h12])
  · exact le_max_right _ 32
  · apply max_le _ (by norm_num)
    have hle : round (clusterIconSize c1) ≤ round ((48:ℝ)) := by
      rw [round_eq, round_eq]
      exact Int.floor_le_floor (by linarith [clusterIconSize_le_48 c1])
    rw [show round ((48:ℝ)) = 48 by norm_num [round_eq]] at hle
    exact hle

/-- Witness for C4 at the domain endpoints. -/
theorem clusterIcon_monotone_bounded_witness :
    clusterIconWidth 2 ≤ clusterIconWidth 100 ∧
    32 ≤ clusterIconWidth 2 ∧ clusterIconWidth 2 ≤ 48 :=
  clusterIcon_monotone_bounded 2 100 (by norm_num) (by norm_num) (by norm_num)

end UfoMap
